import Mathlib

/-!
Shallow embedding of the mongo data-access layer in `src/dao/dao_api.go`
(package `dao`), together with the parts of the external `mgo` driver and
`gedex/inflector` library that its behaviour depends on.

Documents and filter maps (`bson.M`, `map[string]interface{}`) are modelled
as association lists of field name to BSON value; Go maps keep their keys
unique, and all map states produced here preserve that invariant.  The
database server, the connection pool and the system clock are external
collaborators: a collection is modelled as the list of its documents (the
natural order of the list standing for the server's natural order), driver
failures are injected as explicit parameters, and the clock is a parameter.
Session copy/close in the Go code is connection-pool plumbing with no effect
on the data and is not modelled.
-/

namespace DaoModel

/-- BSON values as far as the DAL inspects them: strings, the native
ObjectId type (`bson.ObjectId`, a hex string), booleans, integers, embedded
documents (`map[string]interface{}` / `bson.M`), and `mgo.DBRef` values
(an id together with a target collection name). -/
inductive Value where
  | vStr : String → Value
  | vId : String → Value
  | vBool : Bool → Value
  | vInt : Int → Value
  | vDoc : List (String × Value) → Value
  | vRef : String → String → Value
deriving Repr

/-- Structural boolean equality on BSON values (Go `==` / `reflect.DeepEqual`
as used for filter matching). -/
def Value.beq : Value → Value → Bool
  | .vStr a, .vStr b => a == b
  | .vId a, .vId b => a == b
  | .vBool a, .vBool b => a == b
  | .vInt a, .vInt b => a == b
  | .vDoc a, .vDoc b => fieldsBeq a b
  | .vRef i c, .vRef j d => i == j && c == d
  | _, _ => false
where
  /-- Pointwise equality of two field lists. -/
  fieldsBeq : List (String × Value) → List (String × Value) → Bool
  | [], [] => true
  | (k₁, v₁) :: t₁, (k₂, v₂) :: t₂ => k₁ == k₂ && Value.beq v₁ v₂ && fieldsBeq t₁ t₂
  | _, _ => false

instance : BEq Value := ⟨Value.beq⟩

/-- A BSON document / filter map: association list with unique keys,
modelling Go `bson.M` and `map[string]interface{}`. -/
abbrev BsonM := List (String × Value)

/-- Go map read `m[k]`: the value stored at key `k`, if present. -/
def mget (m : BsonM) (k : String) : Option Value :=
  match m with
  | [] => none
  | (k₀, v) :: t => if k₀ = k then some v else mget t k

/-- Go map write `m[k] = v`: replace the entry at `k` if present,
otherwise append a new entry. -/
def mset (m : BsonM) (k : String) (v : Value) : BsonM :=
  match m with
  | [] => [(k, v)]
  | (k₀, v₀) :: t => if k₀ = k then (k, v) :: t else (k₀, v₀) :: mset t k v

/-- Go `delete(m, k)`: remove the entry at key `k` (no-op when absent). -/
def mdelete (m : BsonM) (k : String) : BsonM :=
  match m with
  | [] => []
  | (k₀, v₀) :: t => if k₀ = k then mdelete t k else (k₀, v₀) :: mdelete t k

/-- Error kinds the DAL can surface.  `errNull` and `errUnSupportType` are
the package-level error values of `dao_api.go`; `errNotFound` is
`mgo.ErrNotFound`; `driverErr` stands for any other pass-through driver
error; `invalidParam`, `mustContainId` and `idFormatErr` are the three
`fmt.Errorf` shapes of `DBRef`/`DBRefId`.  `ambiguousMatch` is an error
KIND from the specification's taxonomy (§7); the Go code never produces a
distinct value for it — it is declared here so that statements from the
spec's vocabulary can be written down and compared with the code. -/
inductive DaoErr where
  | errNull
  | errUnSupportType
  | errNotFound
  | driverErr : String → DaoErr
  | invalidParam : String → DaoErr
  | mustContainId : String → DaoErr
  | idFormatErr : Value → DaoErr
  | ambiguousMatch
deriving Repr

/-- Boolean equality on error kinds (payloads compared with `Value.beq`). -/
def DaoErr.beq : DaoErr → DaoErr → Bool
  | .errNull, .errNull => true
  | .errUnSupportType, .errUnSupportType => true
  | .errNotFound, .errNotFound => true
  | .driverErr a, .driverErr b => a == b
  | .invalidParam a, .invalidParam b => a == b
  | .mustContainId a, .mustContainId b => a == b
  | .idFormatErr a, .idFormatErr b => Value.beq a b
  | .ambiguousMatch, .ambiguousMatch => true
  | _, _ => false

instance : BEq DaoErr := ⟨DaoErr.beq⟩

/-- Dynamic value of a Go `interface{}` selector argument: `nil`, a
`bson.ObjectId`, a `bson.M` filter map, or a value of any other dynamic
type (tagged with a description of that type). -/
inductive GoSel where
  | gonil
  | objectId : String → GoSel
  | filterMap : BsonM → GoSel
  | other : String → GoSel

/-- Hexadecimal digit test, as accepted by Go `encoding/hex`. -/
def isHexChar (c : Char) : Bool :=
  c.isDigit || (Char.ofNat 97 ≤ c && c ≤ Char.ofNat 102) || (Char.ofNat 65 ≤ c && c ≤ Char.ofNat 70)

/-- Model of `bson.IsObjectIdHex`: a 24-character string that decodes as
hexadecimal. -/
def isObjectIdHex (s : String) : Bool :=
  s.length == 24 && s.toList.all isHexChar

/-- Equality matching of a filter map against a document, as the server
evaluates `co.Find(m)` for the plain field-to-value maps this DAL builds:
every filter field must be present in the document with an equal value. -/
def docMatches (filter doc : BsonM) : Bool :=
  filter.all fun kv =>
    match mget doc kv.1 with
    | some v => Value.beq v kv.2
    | none => false

/-- Predicate for `co.FindId(id)` / `co.UpdateId` / `co.RemoveId`:
the document whose `_id` equals the given ObjectId. -/
def idMatches (id : String) (doc : BsonM) : Bool :=
  match mget doc "_id" with
  | some v => Value.beq v (.vId id)
  | none => false

/-- Test whether the character list `p` begins the character list `s`. -/
def listBeginsWith (p s : List Char) : Bool :=
  match p, s with
  | [], _ => true
  | _, [] => false
  | a :: p₂, b :: s₂ => a == b && listBeginsWith p₂ s₂

/-- Go `strings.HasPrefix` over the character content of the strings. -/
def strBeginsWith (s pre : String) : Bool := listBeginsWith pre.data s.data

/-- Go `strings.HasSuffix` over the character content of the strings. -/
def strFinishesWith (s suf : String) : Bool :=
  listBeginsWith suf.data.reverse s.data.reverse

/-- Lower-casing of one ASCII character. -/
def charLower (c : Char) : Char :=
  if Char.ofNat 65 ≤ c && c ≤ Char.ofNat 90 then Char.ofNat (c.toNat + 32) else c

/-- Go `strings.ToLower` (ASCII, which covers the type names fed to it). -/
def strLower (s : String) : String := ⟨s.data.map charLower⟩

/-- Removal of the first `n` characters of a string. -/
def strDropLeft (s : String) (n : Nat) : String := ⟨s.data.drop n⟩

/-- Removal of the last `n` characters of a string. -/
def strDropRight (s : String) (n : Nat) : String :=
  ⟨s.data.take (s.data.length - n)⟩

/-- Parsed sort key: mgo's `Sort` accepts field names with an optional
`-` (descending) or `+` (ascending) sign. -/
structure SortKey where
  field : String
  ascending : Bool

/-- Model of mgo's sort-key parsing. -/
def parseSortKey (s : String) : SortKey :=
  if strBeginsWith s "-" then ⟨strDropLeft s 1, false⟩
  else if strBeginsWith s "+" then ⟨strDropLeft s 1, true⟩
  else ⟨s, true⟩

/-- Type rank used by the server to order values of different BSON types;
the exact ranks are irrelevant to the claims proved below. -/
def Value.typeRank : Value → Nat
  | .vInt _ => 1
  | .vStr _ => 2
  | .vDoc _ => 3
  | .vId _ => 4
  | .vBool _ => 5
  | .vRef _ _ => 6

/-- Strict comparison of two BSON values, server sort order. -/
def Value.ltB : Value → Value → Bool
  | .vInt a, .vInt b => a < b
  | .vStr a, .vStr b => a < b
  | .vId a, .vId b => a < b
  | .vBool a, .vBool b => !a && b
  | a, b => Value.typeRank a < Value.typeRank b

/-- Comparison of optional field values: a missing field sorts lowest
(the server treats it as null). -/
def optLtB : Option Value → Option Value → Bool
  | none, none => false
  | none, some _ => true
  | some _, none => false
  | some a, some b => a.ltB b

/-- Lexicographic document order induced by a list of sort keys. -/
def docLeByKeys (keys : List SortKey) (d₁ d₂ : BsonM) : Bool :=
  match keys with
  | [] => true
  | k :: rest =>
    let a := mget d₁ k.field
    let b := mget d₂ k.field
    let x := if k.ascending then optLtB a b else optLtB b a
    let y := if k.ascending then optLtB b a else optLtB a b
    if x then true
    else if y then false
    else docLeByKeys rest d₁ d₂

/-- Whether an update document is an operator update (keys such as `$set`)
rather than a full-document replacement. -/
def isOpUpdate (upd : BsonM) : Bool :=
  upd.any fun kv => strBeginsWith kv.1 "$"

/-- Application of a `$set` operator document: each listed field is written
into the document. -/
def applySet (fields : BsonM) (doc : BsonM) : BsonM :=
  fields.foldl (fun d kv => mset d kv.1 kv.2) doc

/-- Server-side application of an update document to a matched document:
an operator update applies its `$set` fields (the only operator this DAL
issues); a replacement update replaces the whole document, preserving the
stored `_id`. -/
def applyUpdate (upd doc : BsonM) : BsonM :=
  if isOpUpdate upd then
    match mget upd "$set" with
    | some (.vDoc fields) => applySet fields doc
    | _ => doc
  else
    match mget doc "_id" with
    | some i => mset upd "_id" i
    | none => upd

/-- Server-side `update` of the first document satisfying `p` (mgo's
`Update`/`UpdateId` affect a single document); `none` when no document
matches (mgo surfaces this as `ErrNotFound`). -/
def updateFirst (p : BsonM → Bool) (upd : BsonM) : List BsonM → Option (List BsonM)
  | [] => none
  | d :: t =>
    if p d then some (applyUpdate upd d :: t)
    else (updateFirst p upd t).map (d :: ·)

/-- Server-side `remove` of the first document satisfying `p` (mgo's
`Remove`/`RemoveId` delete a single document); `none` when no document
matches. -/
def removeFirst (p : BsonM → Bool) : List BsonM → Option (List BsonM)
  | [] => none
  | d :: t =>
    if p d then some t
    else (removeFirst p t).map (d :: ·)

/-- Insertion of a document into a sorted run (model of the server sort). -/
def insertSorted (le : BsonM → BsonM → Bool) (d : BsonM) : List BsonM → List BsonM
  | [] => [d]
  | e :: t => if le d e then d :: e :: t else e :: insertSorted le d t

/-- Insertion sort of a result set by a boolean comparison. -/
def sortByLe (le : BsonM → BsonM → Bool) : List BsonM → List BsonM
  | [] => []
  | d :: t => insertSorted le d (sortByLe le t)

/-- Server-side sort of a result set by mgo sort keys (`q.Sort`). -/
def sortDocs (keys : List String) (docs : List BsonM) : List BsonM :=
  sortByLe (docLeByKeys (keys.map parseSortKey)) docs

/-- Outcome of a write operation: the error returned to the caller (if any)
and the collection contents afterwards. -/
structure WriteOut where
  err : Option DaoErr
  col : List BsonM

/-- Index specification passed to `mgo.Collection.EnsureIndex`
(`mgo.Index`; the fields this DAL sets). -/
structure MgoIndex where
  Key : List String
  Unique : Bool
  DropDups : Bool
  Background : Bool
  Sparse : Bool
deriving Repr

/-- State of one collection: its secondary indexes and its documents. -/
structure CollState where
  indexes : List MgoIndex
  docs : List BsonM

/-- Embedding of `Dao.CreateDoc`.  `ensureErr` injects the outcome of the
driver call `co.EnsureIndex` (`some e` standing for a failed round trip, in
which case no index is created); the insert itself is modelled as
succeeding.  Mirrors the Go code: an empty `idxKeys` is replaced by
`["-create_at"]`, the index is ensured with Unique, DropDups, Background
and Sparse all set, and `co.Insert(docs)` runs only after `EnsureIndex`
returned without error. -/
def CreateDoc (st : CollState) (docs : BsonM) (idxKeys : List String)
    (ensureErr : Option String) : Option DaoErr × CollState :=
  let idxKeys := if idxKeys.length = 0 then ["-create_at"] else idxKeys
  let index : MgoIndex :=
    { Key := idxKeys, Unique := true, DropDups := true, Background := true, Sparse := true }
  match ensureErr with
  | some e => (some (.driverErr e), st)
  | none => (none, { indexes := st.indexes ++ [index], docs := st.docs ++ [docs] })

/-- An `mgo.Change` value (the fields `Apply` consumes). -/
structure MgoChange where
  Update : BsonM
  Upsert : Bool
  Remove : Bool
  ReturnNew : Bool

/-- Dynamic value of the `update interface{}` argument of `UpsertDoc`:
either an `mgo.Change` or a plain update document. -/
inductive GoUpd where
  | change : MgoChange → GoUpd
  | doc : BsonM → GoUpd

/-- Document inserted by an upsert when nothing matched: the update
document (its `$set` fields applied over the selector's equality fields for
an operator update), with a freshly generated `_id` unless one was given. -/
def newDocFor (upd : BsonM) (newId : String) (base : BsonM) : BsonM :=
  if isOpUpdate upd then
    let merged :=
      match mget upd "$set" with
      | some (.vDoc fields) => applySet fields base
      | _ => base
    if (mget merged "_id").isSome then merged else mset merged "_id" (.vId newId)
  else
    if (mget upd "_id").isSome then upd else mset upd "_id" (.vId newId)

/-- Server-side upsert (`co.Upsert` / `co.UpsertId`): update the first
match, or insert a new document when nothing matched. -/
def upsertBy (p : BsonM → Bool) (upd : BsonM) (newId : String) (base : BsonM)
    (col : List BsonM) : List BsonM :=
  match updateFirst p upd col with
  | some col₂ => col₂
  | none => col ++ [newDocFor upd newId base]

/-- Server-side `findAndModify` (`q.Apply(change, &i)`): remove or update
the first match; with no match, insert when `Upsert` is set, otherwise
surface `ErrNotFound`. -/
def applyChange (p : BsonM → Bool) (ch : MgoChange) (newId : String) (base : BsonM)
    (col : List BsonM) : WriteOut :=
  if ch.Remove then
    match removeFirst p col with
    | some col₂ => ⟨none, col₂⟩
    | none => ⟨some .errNotFound, col⟩
  else
    match updateFirst p ch.Update col with
    | some col₂ => ⟨none, col₂⟩
    | none =>
      if ch.Upsert then ⟨none, col ++ [newDocFor ch.Update newId base]⟩
      else ⟨some .errNotFound, col⟩

/-- Embedding of `Dao.UpsertDoc`: nil check, then type dispatch — a
`bson.M` selector goes through `Apply` (for an `mgo.Change` update) or
`Upsert`; a `bson.ObjectId` selector through `Apply` or `UpsertId`; any
other selector type fails with `errUnSupportType`.  `newId` injects the id
the server would generate on an upsert-insert; the `*mgo.ChangeInfo`
result is not modelled (no claim inspects it). -/
def UpsertDoc (col : List BsonM) (newId : String) (selector : GoSel) (update : GoUpd) :
    WriteOut :=
  match selector with
  | .gonil => ⟨some .errNull, col⟩
  | .filterMap m =>
    match update with
    | .change ch => applyChange (docMatches m) ch newId m col
    | .doc u => ⟨none, upsertBy (docMatches m) u newId m col⟩
  | .objectId id =>
    match update with
    | .change ch => applyChange (idMatches id) ch newId [("_id", .vId id)] col
    | .doc u => ⟨none, upsertBy (idMatches id) u newId [("_id", .vId id)] col⟩
  | .other _ => ⟨some .errUnSupportType, col⟩

/-- Embedding of `Dao.RemoveDoc`: nil check, then `co.Remove(m)` for a
filter map, `co.RemoveId(id)` for an ObjectId, `errUnSupportType`
otherwise. -/
def RemoveDoc (col : List BsonM) (selector : GoSel) : WriteOut :=
  match selector with
  | .gonil => ⟨some .errNull, col⟩
  | .filterMap m =>
    match removeFirst (docMatches m) col with
    | some col₂ => ⟨none, col₂⟩
    | none => ⟨some .errNotFound, col⟩
  | .objectId id =>
    match removeFirst (idMatches id) col with
    | some col₂ => ⟨none, col₂⟩
    | none => ⟨some .errNotFound, col⟩
  | .other _ => ⟨some .errUnSupportType, col⟩

/-- Update map built by `SoftRemoveDoc` before wrapping it in `$set`, in
the order the Go code fills it (`modify_at`, `delete_at`, `is_delete`).
Both `Now()` calls are modelled with the same clock value `now` (the model
field type of `create_at`/`modify_at`/`delete_at` is string). -/
def softDeleteFields (now : String) : BsonM :=
  [("modify_at", .vStr now), ("delete_at", .vStr now), ("is_delete", .vBool true)]

/-- Embedding of `Dao.SoftRemoveDoc`: nil check, then
`co.Update(m, bson.M{"$set": update})` resp. `co.UpdateId(id, ...)` with
the three soft-delete fields; `errUnSupportType` for any other selector
type. -/
def SoftRemoveDoc (now : String) (col : List BsonM) (selector : GoSel) : WriteOut :=
  match selector with
  | .gonil => ⟨some .errNull, col⟩
  | .filterMap m =>
    match updateFirst (docMatches m) [("$set", .vDoc (softDeleteFields now))] col with
    | some col₂ => ⟨none, col₂⟩
    | none => ⟨some .errNotFound, col⟩
  | .objectId id =>
    match updateFirst (idMatches id) [("$set", .vDoc (softDeleteFields now))] col with
    | some col₂ => ⟨none, col₂⟩
    | none => ⟨some .errNotFound, col⟩
  | .other _ => ⟨some .errUnSupportType, col⟩

/-- Deletion of the two immutable fields from an update payload, in the
order the Go code performs it (`delete(update, "_id")` guarded by a
presence test that Go's `delete` makes redundant, then the same for
`create_at`). -/
def stripImmutable (update : BsonM) : BsonM :=
  mdelete (mdelete update "_id") "create_at"

/-- Result of `UpdateDoc`: the returned error, the collection afterwards,
and the caller's update map afterwards — `update` is a Go map, so the
deletions inside `UpdateDoc` mutate the caller's own map object. -/
structure UpdateOut where
  err : Option DaoErr
  col : List BsonM
  upd : BsonM

/-- Embedding of `Dao.UpdateDoc`: nil check; then the top-level `_id` and
`create_at` keys are deleted from the update map; then `co.Update(m, update)`
for a filter map, `co.UpdateId(id, update)` for an ObjectId, and
`errUnSupportType` for any other selector type (the map mutation has
already happened on that path). -/
def UpdateDoc (col : List BsonM) (selector : GoSel) (update : BsonM) : UpdateOut :=
  match selector with
  | .gonil => ⟨some .errNull, col, update⟩
  | .filterMap m =>
    let update := stripImmutable update
    match updateFirst (docMatches m) update col with
    | some col₂ => ⟨none, col₂, update⟩
    | none => ⟨some .errNotFound, col, update⟩
  | .objectId id =>
    let update := stripImmutable update
    match updateFirst (idMatches id) update col with
    | some col₂ => ⟨none, col₂, update⟩
    | none => ⟨some .errNotFound, col, update⟩
  | .other _ => ⟨some .errUnSupportType, col, stripImmutable update⟩

/-- The `Page` struct of `dao_api.go` (Go `int` fields). -/
structure Page where
  Valid : Bool
  Offset : Int
  Limit : Int

/-- The query handle `Find` returns (the fields of `*mgo.Query` that this
DAL sets): the filter, the sort keys, and the skip/limit values — present
only when `Find` applied them. -/
structure MgoQuery where
  filter : BsonM
  sortKeys : List String
  skip : Option Int
  limit : Option Int

/-- Sort keys after the default is applied — both `Find` and `FindDoc`
replace an empty `sortKeys` with `["-create_at"]`. -/
def defaultSortKeys (sortKeys : List String) : List String :=
  if sortKeys.length = 0 then ["-create_at"] else sortKeys

/-- Embedding of `Dao.Find`: nil check; `co.Find(query)`; default sort key
`-create_at` when none supplied; `Skip(page.Offset).Limit(page.Limit)`
exactly when `page.Valid`.  The query is returned unexecuted. -/
def Find (query : Option BsonM) (page : Page) (sortKeys : List String) :
    Except DaoErr MgoQuery :=
  match query with
  | none => .error .errNull
  | some m =>
    let sortKeys := defaultSortKeys sortKeys
    let q : MgoQuery := { filter := m, sortKeys := sortKeys, skip := none, limit := none }
    let q := if page.Valid then { q with skip := some page.Offset, limit := some page.Limit } else q
    .ok q

/-- Server-side execution of a query handle: filter, sort, then apply skip
and limit where set (Go ints clamped at zero on the wire model). -/
def runQuery (col : List BsonM) (q : MgoQuery) : List BsonM :=
  let ms := sortDocs q.sortKeys (col.filter (docMatches q.filter))
  let ms := match q.skip with
    | some n => ms.drop n.toNat
    | none => ms
  match q.limit with
  | some n => ms.take n.toNat
  | none => ms

/-- Embedding of `Dao.FindDoc`: builds the same query as `Find` and
materializes it with `q.All(&results)`. -/
def FindDoc (col : List BsonM) (query : Option BsonM) (page : Page) (sortKeys : List String) :
    Except DaoErr (List BsonM) :=
  match query with
  | none => .error .errNull
  | some m =>
    let sortKeys := defaultSortKeys sortKeys
    let q : MgoQuery := { filter := m, sortKeys := sortKeys, skip := none, limit := none }
    let q := if page.Valid then { q with skip := some page.Offset, limit := some page.Limit } else q
    .ok (runQuery col q)

/-- Outcome of `FindOne`: a document, an error, or the runtime panic that
`q.One(&result)` raises when `q` is still the nil `*mgo.Query` because
neither type assertion on the selector succeeded. -/
inductive FindOneOut where
  | ok : BsonM → FindOneOut
  | err : DaoErr → FindOneOut
  | nilPanic : FindOneOut
deriving Repr

/-- Model of `q.One(&result)`: the first document of the result set, or
`mgo.ErrNotFound` when the set is empty. -/
def queryOne (results : List BsonM) : FindOneOut :=
  match results with
  | [] => .err .errNotFound
  | d :: _ => .ok d

/-- Embedding of `Dao.FindOne`: nil check; for a `bson.M` filter, count the
matches and return `mgo.ErrNotFound` when the count exceeds one, otherwise
fall through to `q.One`; for a `bson.ObjectId`, `co.FindId(id)` then
`q.One`; for any other selector type both assertions fail, `q` stays nil,
and `q.One` dereferences a nil pointer (runtime panic). -/
def FindOne (col : List BsonM) (query : GoSel) : FindOneOut :=
  match query with
  | .gonil => .err .errNull
  | .filterMap m =>
    let results := col.filter (docMatches m)
    let cnt := results.length
    if cnt > 1 then .err .errNotFound
    else queryOne results
  | .objectId id => queryOne (col.filter (idMatches id))
  | .other _ => .nilPanic

/-- Fault injected into a `CreateGridFs` run: which driver step, if any,
fails (each constructor carries the driver's error text). -/
inductive GfsFault where
  | ok
  | createFail : String → GfsFault
  | writeFail : String → GfsFault
  | closeFail : String → GfsFault

/-- Embedding of `Dao.CreateGridFs`.  `genId` injects the id produced by
`bson.NewObjectId()`, which the code generates before any storage step.
Control flow mirrors the Go code: a failed `gfs.Create` or `fs.Write`
returns the generated id alongside the error; a failed `fs.Close` returns
the empty ObjectId `""` alongside the error; on success the id is returned
with a nil error. -/
def CreateGridFs (genId : String) (fault : GfsFault) : String × Option DaoErr :=
  let id := genId
  match fault with
  | .createFail e => (id, some (.driverErr e))
  | .writeFail e => (id, some (.driverErr e))
  | .closeFail e => ("", some (.driverErr e))
  | .ok => (id, none)

/-- Model of the external `gedex/inflector` `Pluralize` for the regular
nouns this repository feeds it: suffixes `s`, `x`, `z`, `ch`, `sh` take
`es`; a `y` after a consonant becomes `ies`; everything else appends `s`. -/
def pluralize (s : String) : String :=
  if strFinishesWith s "s" || strFinishesWith s "x" || strFinishesWith s "z"
      || strFinishesWith s "ch" || strFinishesWith s "sh" then
    s ++ "es"
  else if strFinishesWith s "ay" || strFinishesWith s "ey" || strFinishesWith s "iy"
      || strFinishesWith s "oy" || strFinishesWith s "uy" then
    s ++ "s"
  else if strFinishesWith s "y" then
    (strDropRight s 1) ++ "ies"
  else
    s ++ "s"

/-- Test used by `DBRef`/`DBRefId` on the `id` entry:
`reflect.TypeOf(id).Kind() == reflect.String` together with
`bson.IsObjectIdHex(id.(string))`.  The maps fed to these functions are
decoded request bodies, whose string-kinded values are plain strings, so
the kind test is modelled as a test for a string value.  The valid hex
string, when the test passes, is the string itself. -/
def isValidIdString : Value → Bool
  | .vStr s => isObjectIdHex s
  | _ => false

/-- Embedding of the package function `DBRef` (with the type descriptor
`t` replaced by its name `t.Name()`, the only thing the code reads from
it).  Returns the Go error and the map after the call — the map is
mutated in place by `delete` and by the `_ref` write.  Mirrors the code:
absent field is a no-op; a non-map field value is `invalid param given`;
a map without `id` is `must ... contain a id field`; then the field is
deleted, and only afterwards is the id checked — a bad id returns
`id format error` with the field already gone; a good id writes
`mgo.DBRef{Id, Collection}` under `field + "_ref"`, the collection being
the lower-cased pluralization of the type name. -/
def DBRef (field : String) (tName : String) (m : BsonM) : Option DaoErr × BsonM :=
  match mget m field with
  | none => (none, m)
  | some value =>
    match value with
    | .vDoc refer =>
      match mget refer "id" with
      | none => (some (.mustContainId field), m)
      | some id =>
        let m := mdelete m field
        match id with
        | .vStr s =>
          if isObjectIdHex s then
            (none, mset m (field ++ "_ref") (.vRef s (strLower (pluralize tName))))
          else
            (some (.idFormatErr id), m)
        | _ => (some (.idFormatErr id), m)
    | _ => (some (.invalidParam field), m)

/-- Embedding of the package function `DBRefId`: as `DBRef`, but writing
only the raw id under the dotted key `field + "_ref.$id"` and involving no
type descriptor. -/
def DBRefId (field : String) (m : BsonM) : Option DaoErr × BsonM :=
  match mget m field with
  | none => (none, m)
  | some value =>
    match value with
    | .vDoc refer =>
      match mget refer "id" with
      | none => (some (.mustContainId field), m)
      | some id =>
        let m := mdelete m field
        match id with
        | .vStr s =>
          if isObjectIdHex s then
            (none, mset m (field ++ "_ref.$id") (.vId s))
          else
            (some (.idFormatErr id), m)
        | _ => (some (.idFormatErr id), m)
    | _ => (some (.invalidParam field), m)

/-- Sorted result set of a query as `Find`/`FindDoc` build it: the
matching documents under the (defaulted) sort keys. -/
def sortedMatches (col : List BsonM) (m : BsonM) (sortKeys : List String) : List BsonM :=
  sortDocs (defaultSortKeys sortKeys) (col.filter (docMatches m))

/-- A valid 24-character ObjectId hex string used in concrete instances. -/
def hexA : String := "a1b2c3d4e5f6a1b2c3d4e5f6"

/-- Sample stored document (id `a`). -/
def docA : BsonM := [("_id", .vId "a"), ("create_at", .vStr "t1"), ("name", .vStr "x")]

/-- Sample stored document (id `b`) sharing `name` with `docA`. -/
def docB : BsonM := [("_id", .vId "b"), ("create_at", .vStr "t2"), ("name", .vStr "x")]

/-- Filter matching both sample documents. -/
def nameFilter : BsonM := [("name", .vStr "x")]

/-- Request map holding a well-formed author reference. -/
def authorMap : BsonM := [("title", .vStr "T"), ("author", .vDoc [("id", .vStr hexA)])]

/-- Request map whose author id has a non-string dynamic type. -/
def badIdMap : BsonM := [("author", .vDoc [("id", .vInt 3)]), ("x", .vStr "y")]

/-- Twelve numbered documents used to exercise pagination. -/
def pageDocs : List BsonM := (List.range 12).map fun i => [("n", Value.vInt i)]

theorem mget_mdelete_self (m : BsonM) (k : String) : mget (mdelete m k) k = none := by
  induction m with
  | nil => rfl
  | cons kv t ih =>
    obtain ⟨k₀, v₀⟩ := kv
    by_cases h : k₀ = k
    · simpa [mdelete, h] using ih
    · simpa [mdelete, h, mget] using ih

theorem mget_mdelete_ne (m : BsonM) (k j : String) (hne : j ≠ k) :
    mget (mdelete m k) j = mget m j := by
  induction m with
  | nil => rfl
  | cons kv t ih =>
    obtain ⟨k₀, v₀⟩ := kv
    by_cases h : k₀ = k
    · simpa [mdelete, h, mget, Ne.symm hne] using ih
    · by_cases hj : k₀ = j
      · simp [mdelete, h, mget, hj, hne]
      · simpa [mdelete, h, mget, hj] using ih

theorem mget_mset_self (m : BsonM) (k : String) (v : Value) :
    mget (mset m k v) k = some v := by
  induction m with
  | nil => simp [mset, mget]
  | cons kv t ih =>
    obtain ⟨k₀, v₀⟩ := kv
    by_cases h : k₀ = k
    · simp [mset, h, mget]
    · simpa [mset, h, mget] using ih

theorem mget_mset_ne (m : BsonM) (k j : String) (v : Value) (hne : j ≠ k) :
    mget (mset m k v) j = mget m j := by
  induction m with
  | nil => simp [mset, mget, Ne.symm hne]
  | cons kv t ih =>
    obtain ⟨k₀, v₀⟩ := kv
    by_cases h : k₀ = k
    · simp [mset, h, mget, Ne.symm hne]
    · by_cases hj : k₀ = j
      · simp [mset, h, mget, hj, hne]
      · simpa [mset, h, mget, hj] using ih

theorem insertSorted_perm (le : BsonM → BsonM → Bool) (d : BsonM) (l : List BsonM) :
    List.Perm (insertSorted le d l) (d :: l) := by
  induction l with
  | nil => exact List.Perm.refl _
  | cons e t ih =>
    by_cases h : le d e
    · simp [insertSorted, h]
    · simp only [insertSorted, h, Bool.false_eq_true, if_false]
      exact List.Perm.trans (ih.cons e) (List.Perm.swap d e t)

theorem sortByLe_perm (le : BsonM → BsonM → Bool) (l : List BsonM) :
    List.Perm (sortByLe le l) l := by
  induction l with
  | nil => exact List.Perm.refl _
  | cons d t ih =>
    exact List.Perm.trans (insertSorted_perm le d (sortByLe le t)) (ih.cons d)

theorem sortDocs_perm (keys : List String) (docs : List BsonM) :
    List.Perm (sortDocs keys docs) docs := sortByLe_perm _ docs

theorem mdelete_mset_self (m : BsonM) (k : String) (v : Value) :
    mdelete (mset m k v) k = mdelete m k := by
  induction m with
  | nil => simp [mset, mdelete]
  | cons kv t ih =>
    obtain ⟨k₀, v₀⟩ := kv
    by_cases h : k₀ = k
    · simp [mset, mdelete, h]
    · simp [mset, mdelete, h, ih]

theorem mdelete_comm (m : BsonM) (a b : String) :
    mdelete (mdelete m a) b = mdelete (mdelete m b) a := by
  induction m with
  | nil => rfl
  | cons kv t ih =>
    obtain ⟨k₀, v₀⟩ := kv
    by_cases ha : k₀ = a
    · by_cases hb : k₀ = b
      · have hab : a = b := by rw [← ha, hb]
        subst hab
        rfl
      · have hab : ¬ (a = b) := by rw [← ha]; exact hb
        simp [mdelete, ha, hb, hab, ih]
    · by_cases hb : k₀ = b
      · have hba : ¬ (b = a) := by rw [← hb]; exact ha
        simp [mdelete, ha, hb, hba, ih]
      · simp [mdelete, ha, hb, ih]

theorem applySet_mget_notin (flds : BsonM) (d : BsonM) (k : String)
    (h : ∀ kv ∈ flds, kv.1 ≠ k) : mget (applySet flds d) k = mget d k := by
  induction flds generalizing d with
  | nil => rfl
  | cons kv t ih =>
    have hk : kv.1 ≠ k := h kv (by simp)
    have ht : ∀ kv₂ ∈ t, kv₂.1 ≠ k := fun kv₂ hm => h kv₂ (by simp [hm])
    calc mget (applySet (kv :: t) d) k
        = mget (applySet t (mset d kv.1 kv.2)) k := rfl
      _ = mget (mset d kv.1 kv.2) k := ih (mset d kv.1 kv.2) ht
      _ = mget d k := mget_mset_ne d kv.1 k kv.2 (Ne.symm hk)

theorem updateFirst_some (p : BsonM → Bool) (upd : BsonM) (l l₂ : List BsonM)
    (h : updateFirst p upd l = some l₂) :
    l₂.length = l.length ∧
      ∀ d₂ ∈ l₂, d₂ ∈ l ∨ ∃ d, d ∈ l ∧ p d = true ∧ d₂ = applyUpdate upd d := by
  induction l generalizing l₂ with
  | nil => simp [updateFirst] at h
  | cons d t ih =>
    by_cases hp : p d
    · simp only [updateFirst, hp, if_true, Option.some.injEq] at h
      subst h
      refine ⟨by simp, ?_⟩
      intro d₂ hd₂
      rcases List.mem_cons.mp hd₂ with h₁ | h₁
      · exact Or.inr ⟨d, by simp, hp, h₁⟩
      · exact Or.inl (List.mem_cons_of_mem d h₁)
    · simp only [updateFirst, hp, Bool.false_eq_true, if_false] at h
      cases ht : updateFirst p upd t with
      | none => simp [ht] at h
      | some t₂ =>
        rw [ht] at h
        have h₂ : d :: t₂ = l₂ := by simpa using h
        subst h₂
        obtain ⟨hl, hm⟩ := ih t₂ ht
        refine ⟨by simp [hl], ?_⟩
        intro d₂ hd₂
        rcases List.mem_cons.mp hd₂ with h₁ | h₁
        · exact Or.inl (by simp [h₁])
        · rcases hm d₂ h₁ with h₂ | ⟨d₃, hd₃, hpd₃, hde⟩
          · exact Or.inl (List.mem_cons_of_mem d h₂)
          · exact Or.inr ⟨d₃, List.mem_cons_of_mem d hd₃, hpd₃, hde⟩

theorem applyUpdate_set_doc (flds d : BsonM) :
    applyUpdate [("$set", .vDoc flds)] d = applySet flds d := by
  have hop : isOpUpdate [("$set", Value.vDoc flds)] = true := rfl
  simp [applyUpdate, hop, mget]

theorem stripImmutable_mset_id (u : BsonM) (v : Value) :
    stripImmutable (mset u "_id" v) = stripImmutable u := by
  unfold stripImmutable
  rw [mdelete_mset_self]

theorem stripImmutable_mset_create_at (u : BsonM) (v : Value) :
    stripImmutable (mset u "create_at" v) = stripImmutable u := by
  unfold stripImmutable
  rw [mdelete_comm (mset u "create_at" v) "_id" "create_at",
      mdelete_mset_self, mdelete_comm]

theorem updateDoc_upd_eq (col : List BsonM) (sel : GoSel) (upd : BsonM)
    (h : sel ≠ .gonil) : (UpdateDoc col sel upd).upd = stripImmutable upd := by
  cases sel with
  | gonil => exact absurd rfl h
  | filterMap m =>
    cases h₂ : updateFirst (docMatches m) (stripImmutable upd) col <;>
      simp [UpdateDoc, h₂]
  | objectId id =>
    cases h₂ : updateFirst (idMatches id) (stripImmutable upd) col <;>
      simp [UpdateDoc, h₂]
  | other s => rfl

theorem mget_stripImmutable_id (u : BsonM) : mget (stripImmutable u) "_id" = none := by
  unfold stripImmutable
  rw [mget_mdelete_ne _ "create_at" "_id" (by decide)]
  exact mget_mdelete_self u "_id"

theorem mget_stripImmutable_create_at (u : BsonM) :
    mget (stripImmutable u) "create_at" = none :=
  mget_mdelete_self _ "create_at"

theorem mget_stripImmutable_other (u : BsonM) (k : String)
    (h₁ : k ≠ "_id") (h₂ : k ≠ "create_at") : mget (stripImmutable u) k = mget u k := by
  unfold stripImmutable
  rw [mget_mdelete_ne _ "create_at" k h₂, mget_mdelete_ne _ "_id" k h₁]

/-- C2: for every non-nil selector of an unsupported dynamic type,
`UpsertDoc`, `RemoveDoc`, `SoftRemoveDoc` and `UpdateDoc` return
`errUnSupportType` and leave the collection untouched — but `FindOne`
does not: both of its type assertions fail, the query handle stays nil,
and `q.One(&result)` dereferences a nil `*mgo.Query` (a runtime panic)
instead of returning the unsupported-selector error the claim states.
The claim therefore holds for the four write operations and fails for
`FindOne`, where the code contradicts the intent its sibling functions
and the shared `errUnSupportType` value establish. -/
theorem C2_unsupported_selector (col : List BsonM) (newId now s : String) (u : GoUpd)
    (upd : BsonM) :
    UpsertDoc col newId (.other s) u = ⟨some .errUnSupportType, col⟩
    ∧ RemoveDoc col (.other s) = ⟨some .errUnSupportType, col⟩
    ∧ SoftRemoveDoc now col (.other s) = ⟨some .errUnSupportType, col⟩
    ∧ (UpdateDoc col (.other s) upd).err = some .errUnSupportType
    ∧ (UpdateDoc col (.other s) upd).col = col
    ∧ FindOne col (.other s) = .nilPanic :=
  ⟨rfl, rfl, rfl, rfl, rfl, rfl⟩

/-- C5: `CreateDoc` with no caller-supplied index keys ensures, before any
insert, the index on the single descending key `-create_at` with Unique,
DropDups, Background and Sparse all set.  When `EnsureIndex` fails, that
error is returned and the collection state — in particular its document
list — is unchanged, so the insert was never attempted; when it succeeds,
the index is recorded and only then is the document inserted. -/
theorem C5_createDoc_default_index (st : CollState) (docs : BsonM) (e : String) :
    CreateDoc st docs [] (some e) = (some (.driverErr e), st)
    ∧ CreateDoc st docs [] none
        = (none,
           { indexes := st.indexes
               ++ [{ Key := ["-create_at"], Unique := true, DropDups := true,
                     Background := true, Sparse := true }],
             docs := st.docs ++ [docs] }) :=
  ⟨rfl, rfl⟩

/-- C8: on a map with field `author` holding an object whose `id` is a
24-character hex string, and type name `Author`, `DBRef` succeeds, deletes
`author` from the map, and writes under `author_ref` a reference carrying
that identifier and the collection name `authors` — the lower-cased
pluralization of the type name. -/
theorem C8_dbref_author :
    (DBRef "author" "Author" authorMap).1 = none
    ∧ mget (DBRef "author" "Author" authorMap).2 "author" = none
    ∧ mget (DBRef "author" "Author" authorMap).2 "author_ref"
        = some (.vRef hexA "authors")
    ∧ strLower (pluralize "Author") = "authors" :=
  ⟨rfl, rfl, rfl, rfl⟩

/-- C9: in `CreateGridFs` the identifier is generated before any storage
step; a failing stream-create or write step returns that identifier
alongside the error, a failing close step returns the empty identifier
alongside the error, and the success path returns the identifier with no
error. -/
theorem C9_gridfs_faults (genId e : String) :
    CreateGridFs genId (.createFail e) = (genId, some (.driverErr e))
    ∧ CreateGridFs genId (.writeFail e) = (genId, some (.driverErr e))
    ∧ CreateGridFs genId (.closeFail e) = ("", some (.driverErr e))
    ∧ CreateGridFs genId .ok = (genId, none) :=
  ⟨rfl, rfl, rfl, rfl⟩

/-- C10: `UpdateDoc` mutates the caller's update map in place — after any
call with a non-nil selector, including calls that fail with the
unsupported-selector error, the top-level `_id` and `create_at` keys are
gone from the caller's map while every other key is untouched. -/
theorem C10_updateDoc_mutates_callers_map (col : List BsonM) (sel : GoSel) (upd : BsonM)
    (h : sel ≠ .gonil) :
    mget (UpdateDoc col sel upd).upd "_id" = none
    ∧ mget (UpdateDoc col sel upd).upd "create_at" = none
    ∧ ∀ k, k ≠ "_id" → k ≠ "create_at" →
        mget (UpdateDoc col sel upd).upd k = mget upd k := by
  rw [updateDoc_upd_eq col sel upd h]
  exact ⟨mget_stripImmutable_id upd, mget_stripImmutable_create_at upd,
    fun k h₁ h₂ => mget_stripImmutable_other upd k h₁ h₂⟩

/-- Witness for C10 at a concrete input: an unsupported selector type, so
the call fails with `errUnSupportType`, yet the caller's map has lost
`_id` and `create_at` and kept its other key. -/
theorem C10_updateDoc_mutates_callers_map_witness :
    (UpdateDoc [docA] (.other "string")
        [("_id", .vId "z"), ("create_at", .vStr "u"), ("n", .vInt 1)]).err
      = some .errUnSupportType
    ∧ mget (UpdateDoc [docA] (.other "string")
        [("_id", .vId "z"), ("create_at", .vStr "u"), ("n", .vInt 1)]).upd "_id" = none
    ∧ mget (UpdateDoc [docA] (.other "string")
        [("_id", .vId "z"), ("create_at", .vStr "u"), ("n", .vInt 1)]).upd "create_at" = none
    ∧ mget (UpdateDoc [docA] (.other "string")
        [("_id", .vId "z"), ("create_at", .vStr "u"), ("n", .vInt 1)]).upd "n"
      = some (.vInt 1) := by
  have h := C10_updateDoc_mutates_callers_map [docA] (.other "string")
    [("_id", .vId "z"), ("create_at", .vStr "u"), ("n", .vInt 1)] (by simp)
  exact ⟨rfl, h.1, h.2.1, (h.2.2 "n" (by decide) (by decide)).trans (by rfl)⟩

/-- Counterexample to C3 as stated: a payload that modifies `create_at`
through the `$set` operator is not stripped — the call succeeds and the
stored document's `create_at` changes from `t1` to `u9`. -/
theorem C3_counterexample :
    mget docA "create_at" = some (.vStr "t1")
    ∧ (UpdateDoc [docA] (.filterMap nameFilter)
        [("$set", .vDoc [("create_at", .vStr "u9")])]).err = none
    ∧ (UpdateDoc [docA] (.filterMap nameFilter)
        [("$set", .vDoc [("create_at", .vStr "u9")])]).col
      = [[("_id", .vId "a"), ("create_at", .vStr "u9"), ("name", .vStr "x")]] :=
  ⟨rfl, rfl, rfl⟩

/-- C3 (amended): `UpdateDoc` deletes the top-level `_id` and `create_at`
keys of the payload before applying it, so a top-level write to either
field never affects the outcome of the update — the returned error and the
resulting collection are the same as if the key had not been supplied.
(Writes nested inside update operators such as `$set` are not stripped and
can still alter `create_at`, as the counterexample shows.) -/
theorem C3_top_level_immutable_writes_dropped (col : List BsonM) (sel : GoSel)
    (upd : BsonM) (v w : Value) :
    ((UpdateDoc col sel (mset upd "_id" v)).err = (UpdateDoc col sel upd).err
      ∧ (UpdateDoc col sel (mset upd "_id" v)).col = (UpdateDoc col sel upd).col)
    ∧ ((UpdateDoc col sel (mset upd "create_at" w)).err = (UpdateDoc col sel upd).err
      ∧ (UpdateDoc col sel (mset upd "create_at" w)).col = (UpdateDoc col sel upd).col) := by
  cases sel with
  | gonil => exact ⟨⟨rfl, rfl⟩, ⟨rfl, rfl⟩⟩
  | filterMap m =>
    simp [UpdateDoc, stripImmutable_mset_id, stripImmutable_mset_create_at]
  | objectId id =>
    simp [UpdateDoc, stripImmutable_mset_id, stripImmutable_mset_create_at]
  | other s => exact ⟨⟨rfl, rfl⟩, ⟨rfl, rfl⟩⟩

/-- Counterexample to C1 as stated: with two matching documents, `FindOne`
returns the very same `mgo.ErrNotFound` value it returns for zero matches,
not a distinct ambiguous-match error — the zero-match and the
multiple-match outcomes are indistinguishable. -/
theorem C1_counterexample :
    FindOne [docA, docB] (.filterMap nameFilter) = .err .errNotFound
    ∧ FindOne ([] : List BsonM) (.filterMap nameFilter) = .err .errNotFound
    ∧ FindOne [docA, docB] (.filterMap nameFilter) ≠ .err .ambiguousMatch := by
  refine ⟨rfl, rfl, fun h => ?_⟩
  rw [(rfl : FindOne [docA, docB] (.filterMap nameFilter) = .err .errNotFound)] at h
  exact DaoErr.noConfusion (FindOneOut.err.inj h)

/-- C1 (amended): for a `bson.M` filter, `FindOne` returns the unique
matching document when the filter matches exactly one; it returns
`mgo.ErrNotFound` when the filter matches none; and when the filter
matches two or more it also returns the `mgo.ErrNotFound` error value —
the code reuses the not-found error for the ambiguous case — rather than
returning an arbitrary match. -/
theorem C1_findOne_filter_cases (col : List BsonM) (m : BsonM) :
    (∀ d, col.filter (docMatches m) = [d] → FindOne col (.filterMap m) = .ok d)
    ∧ (col.filter (docMatches m) = [] → FindOne col (.filterMap m) = .err .errNotFound)
    ∧ (1 < (col.filter (docMatches m)).length →
        FindOne col (.filterMap m) = .err .errNotFound) := by
  refine ⟨?_, ?_, ?_⟩
  · intro d hd
    simp [FindOne, hd, queryOne]
  · intro hd
    simp [FindOne, hd, queryOne]
  · intro hlen
    simp [FindOne, hlen]

/-- Witness for C1 at concrete inputs: a one-document, a zero-document and
a two-document match for the same filter. -/
theorem C1_findOne_filter_cases_witness :
    FindOne [docA] (.filterMap nameFilter) = .ok docA
    ∧ FindOne ([] : List BsonM) (.filterMap nameFilter) = .err .errNotFound
    ∧ FindOne [docB, docA] (.filterMap nameFilter) = .err .errNotFound :=
  ⟨(C1_findOne_filter_cases [docA] nameFilter).1 docA rfl,
   (C1_findOne_filter_cases [] nameFilter).2.1 rfl,
   (C1_findOne_filter_cases [docB, docA] nameFilter).2.2 (by decide)⟩

/-- C4: when the target field is present and holds an object with an `id`
entry whose value is not a string carrying a valid ObjectId hex, `DBRef`
and `DBRefId` return the id-format error only after the original field has
already been deleted from the caller's map: the resulting map is exactly
the input map minus that field — the field is gone and no `_ref` /
`_ref.$id` entry has been written — so the map is not left unchanged on
this error path. -/
theorem C4_format_error_field_already_deleted (m : BsonM) (field tName : String)
    (refer : BsonM) (id : Value)
    (hf : mget m field = some (.vDoc refer)) (hid : mget refer "id" = some id)
    (hbad : isValidIdString id = false) :
    DBRef field tName m = (some (.idFormatErr id), mdelete m field)
    ∧ DBRefId field m = (some (.idFormatErr id), mdelete m field)
    ∧ mget (mdelete m field) field = none := by
  refine ⟨?_, ?_, mget_mdelete_self m field⟩
  · cases id with
    | vStr s =>
      have hb : isObjectIdHex s = false := by simpa [isValidIdString] using hbad
      simp [DBRef, hf, hid, hb]
    | vId s => simp [DBRef, hf, hid]
    | vBool b => simp [DBRef, hf, hid]
    | vInt n => simp [DBRef, hf, hid]
    | vDoc l => simp [DBRef, hf, hid]
    | vRef i c => simp [DBRef, hf, hid]
  · cases id with
    | vStr s =>
      have hb : isObjectIdHex s = false := by simpa [isValidIdString] using hbad
      simp [DBRefId, hf, hid, hb]
    | vId s => simp [DBRefId, hf, hid]
    | vBool b => simp [DBRefId, hf, hid]
    | vInt n => simp [DBRefId, hf, hid]
    | vDoc l => simp [DBRefId, hf, hid]
    | vRef i c => simp [DBRefId, hf, hid]

/-- Witness for C4 at a concrete input: an `author` object whose id is the
integer `3`; both resolvers report the format error and the map has lost
the `author` field. -/
theorem C4_format_error_field_already_deleted_witness :
    DBRef "author" "Author" badIdMap = (some (.idFormatErr (.vInt 3)), [("x", .vStr "y")])
    ∧ DBRefId "author" badIdMap = (some (.idFormatErr (.vInt 3)), [("x", .vStr "y")]) := by
  have h := C4_format_error_field_already_deleted badIdMap "author" "Author"
    [("id", .vInt 3)] (.vInt 3) rfl rfl rfl
  exact ⟨h.1.trans (by rfl), h.2.1.trans (by rfl)⟩

/-- C6: for a supported non-nil selector, a successful `SoftRemoveDoc`
never physically deletes a document — the collection keeps its length, and
every document afterwards is an original document or an original document
with exactly the three soft-delete fields written by `$set`.  A
soft-deleted document carries `is_delete=true`, `delete_at=now` and
`modify_at=now`, and still satisfies every filter that does not constrain
those three fields. -/
theorem C6_softRemove_never_deletes (now : String) (col : List BsonM) (sel : GoSel)
    (hsup : (∃ m, sel = .filterMap m) ∨ (∃ id, sel = .objectId id)) :
    ((SoftRemoveDoc now col sel).err = none →
      (SoftRemoveDoc now col sel).col.length = col.length
      ∧ ∀ d₂ ∈ (SoftRemoveDoc now col sel).col,
          d₂ ∈ col ∨ ∃ d ∈ col, d₂ = applySet (softDeleteFields now) d)
    ∧ (∀ d : BsonM,
        mget (applySet (softDeleteFields now) d) "is_delete" = some (.vBool true)
        ∧ mget (applySet (softDeleteFields now) d) "delete_at" = some (.vStr now)
        ∧ mget (applySet (softDeleteFields now) d) "modify_at" = some (.vStr now))
    ∧ (∀ f : BsonM,
        (∀ kv ∈ f, kv.1 ≠ "is_delete" ∧ kv.1 ≠ "delete_at" ∧ kv.1 ≠ "modify_at") →
        ∀ d, docMatches f d = true →
          docMatches f (applySet (softDeleteFields now) d) = true) := by
  refine ⟨?_, ?_, ?_⟩
  · intro herr
    rcases hsup with ⟨m, rfl⟩ | ⟨id, rfl⟩
    · cases h₂ : updateFirst (docMatches m) [("$set", .vDoc (softDeleteFields now))] col with
      | none => simp [SoftRemoveDoc, h₂] at herr
      | some col₂ =>
        have hout : (SoftRemoveDoc now col (.filterMap m)).col = col₂ := by
          simp [SoftRemoveDoc, h₂]
        obtain ⟨hl, hm⟩ := updateFirst_some _ _ _ _ h₂
        rw [hout]
        refine ⟨hl, fun d₂ hd₂ => ?_⟩
        rcases hm d₂ hd₂ with h₃ | ⟨d, hd, hpd, hde⟩
        · exact Or.inl h₃
        · exact Or.inr ⟨d, hd, by rw [hde, applyUpdate_set_doc]⟩
    · cases h₂ : updateFirst (idMatches id) [("$set", .vDoc (softDeleteFields now))] col with
      | none => simp [SoftRemoveDoc, h₂] at herr
      | some col₂ =>
        have hout : (SoftRemoveDoc now col (.objectId id)).col = col₂ := by
          simp [SoftRemoveDoc, h₂]
        obtain ⟨hl, hm⟩ := updateFirst_some _ _ _ _ h₂
        rw [hout]
        refine ⟨hl, fun d₂ hd₂ => ?_⟩
        rcases hm d₂ hd₂ with h₃ | ⟨d, hd, hpd, hde⟩
        · exact Or.inl h₃
        · exact Or.inr ⟨d, hd, by rw [hde, applyUpdate_set_doc]⟩
  · intro d
    have e : applySet (softDeleteFields now) d
        = mset (mset (mset d "modify_at" (.vStr now)) "delete_at" (.vStr now))
            "is_delete" (.vBool true) := rfl
    rw [e]
    refine ⟨mget_mset_self _ _ _, ?_, ?_⟩
    · rw [mget_mset_ne _ "is_delete" "delete_at" _ (by decide)]
      exact mget_mset_self _ _ _
    · rw [mget_mset_ne _ "is_delete" "modify_at" _ (by decide),
          mget_mset_ne _ "delete_at" "modify_at" _ (by decide)]
      exact mget_mset_self _ _ _
  · intro f hf d hd
    unfold docMatches at hd ⊢
    rw [List.all_eq_true] at hd ⊢
    intro kv hkv
    have hne : ∀ kv₂ ∈ softDeleteFields now, kv₂.1 ≠ kv.1 := by
      intro kv₂ h₂
      have h₃ := hf kv hkv
      simp only [softDeleteFields, List.mem_cons, List.mem_singleton] at h₂
      rcases h₂ with h | h | h
      · rw [h]; exact Ne.symm h₃.2.2
      · rw [h]; exact Ne.symm h₃.2.1
      · simp at h
        rw [h]
        exact Ne.symm h₃.1
    rw [applySet_mget_notin (softDeleteFields now) d kv.1 hne]
    exact hd kv hkv

/-- Witness for C6 at a concrete input: soft-removing document `b` from a
two-document collection leaves two documents, and the soft-deleted `b`
still matches the `name` filter. -/
theorem C6_softRemove_never_deletes_witness :
    (SoftRemoveDoc "n0" [docA, docB] (.objectId "b")).err = none
    ∧ (SoftRemoveDoc "n0" [docA, docB] (.objectId "b")).col.length = 2
    ∧ docMatches nameFilter (applySet (softDeleteFields "n0") docB) = true := by
  have h := C6_softRemove_never_deletes "n0" [docA, docB] (.objectId "b")
    (Or.inr ⟨"b", rfl⟩)
  have hkeys : ∀ kv ∈ nameFilter,
      kv.1 ≠ "is_delete" ∧ kv.1 ≠ "delete_at" ∧ kv.1 ≠ "modify_at" := by
    intro kv hkv
    have hkv₂ : kv = ("name", Value.vStr "x") := by simpa [nameFilter] using hkv
    rw [hkv₂]
    exact ⟨by decide, by decide, by decide⟩
  exact ⟨rfl, (h.1 rfl).1, h.2.2 nameFilter hkeys docB rfl⟩

/-- C7: `Find` records skip and limit on the query exactly when the page
descriptor is valid, and `FindDoc` materializes accordingly — an invalid
page returns the whole sorted match set, a permutation of all matching
documents whatever `Offset` and `Limit` hold, while a valid page drops the
first `Offset` sorted matches and keeps at most `Limit` of the rest. -/
theorem C7_pagination (col : List BsonM) (m : BsonM) (page : Page) (keys : List String) :
    (page.Valid = false →
      FindDoc col (some m) page keys = .ok (sortedMatches col m keys)
      ∧ List.Perm (sortedMatches col m keys) (col.filter (docMatches m))
      ∧ Find (some m) page keys
          = .ok { filter := m, sortKeys := defaultSortKeys keys, skip := none, limit := none })
    ∧ (page.Valid = true →
      FindDoc col (some m) page keys
        = .ok (((sortedMatches col m keys).drop page.Offset.toNat).take page.Limit.toNat)
      ∧ (((sortedMatches col m keys).drop page.Offset.toNat).take page.Limit.toNat).length
          ≤ page.Limit.toNat
      ∧ Find (some m) page keys
          = .ok { filter := m, sortKeys := defaultSortKeys keys,
                  skip := some page.Offset, limit := some page.Limit }) := by
  constructor
  · intro hv
    refine ⟨?_, sortDocs_perm _ _, ?_⟩
    · simp [FindDoc, runQuery, hv, sortedMatches]
    · simp [Find, hv]
  · intro hv
    refine ⟨?_, ?_, ?_⟩
    · simp [FindDoc, runQuery, hv, sortedMatches]
    · rw [List.length_take]
      exact min_le_left _ _
    · simp [Find, hv]

/-- Witness for C7 at a concrete input: twelve documents all matching the
empty filter; an invalid page returns all twelve regardless of the
offset/limit values 10 and 5 it carries, while a valid page with offset 10
and limit 5 skips ten documents and returns the remaining two. -/
theorem C7_pagination_witness :
    FindDoc pageDocs (some []) ⟨false, 10, 5⟩ [] = .ok pageDocs
    ∧ FindDoc pageDocs (some []) ⟨true, 10, 5⟩ []
        = .ok [[("n", Value.vInt 10)], [("n", Value.vInt 11)]] := by
  have h₁ := (C7_pagination pageDocs [] ⟨false, 10, 5⟩ []).1 rfl
  have h₂ := (C7_pagination pageDocs [] ⟨true, 10, 5⟩ []).2 rfl
  exact ⟨h₁.1.trans (by rfl), h₂.1.trans (by rfl)⟩
